import Mathlib

/-!
Verification of the youtube_to_spotify playlist migrator.

The Python sources under src/ are shallowly embedded below:
* `utils.clean_youtube_title` and `utils.parse_artist_song_from_title`
  (including the regex rule engine, transcribed pattern by pattern),
* the scoring loop and two-attempt search policy of
  `spotify_client.SpotifyClient.search_track`,
* the cache/orchestration loop of `main.run_migration`,
* `spotify_client.SpotifyClient.add_tracks_to_playlist`.

External collaborators (the Spotify/YouTube network clients, the
`fuzzywuzzy.fuzz.token_set_ratio` similarity metric and the
`youtube_title_parse.get_artist_title` delegate) are passed in as
function parameters, exactly at the interface the code consumes.
Character-level operations (`str.lower`, `\w`, `\s`) are modelled at
ASCII granularity, which covers every concrete input evaluated here.
-/

namespace YtSp

/-! ### Python string primitives (on `List Char`) -/

/-- Python `str` whitespace (`str.strip()` / regex `\s`), ASCII range:
space, tab, newline, carriage return, vertical tab, form feed. -/
def isPyWs (c : Char) : Bool :=
  c == ' ' || c == '\t' || c == '\n' || c == '\r' || c == '\x0b' || c == '\x0c'

/-- Regex `\w` word character, ASCII range. -/
def isWordChar (c : Char) : Bool :=
  c.isAlphanum || c == '_'

/-- ASCII lower-casing of one character (model of `str.lower`). -/
def lowerChar (c : Char) : Char := c.toLower

def lowerList (l : List Char) : List Char := l.map lowerChar

/-- Drop the given characters from the right end of a list. -/
def dropTrailing (p : Char → Bool) (l : List Char) : List Char :=
  (l.reverse.dropWhile p).reverse

/-- Python `str.strip(chars)`: remove any of `cs` from both ends. -/
def stripCharsList (cs : List Char) (l : List Char) : List Char :=
  dropTrailing (cs.contains ·) (l.dropWhile (cs.contains ·))

/-- Python `str.strip()` (whitespace strip). -/
def pyStripList (l : List Char) : List Char :=
  dropTrailing isPyWs (l.dropWhile isPyWs)

def pyStrip (s : String) : String := ⟨pyStripList s.data⟩

def lowerStr (s : String) : String := ⟨lowerList s.data⟩

/-- Does `v` start with `w`, compared case-insensitively (ASCII)? -/
def startsWithCI : List Char → List Char → Bool
  | [], _ => true
  | _ :: _, [] => false
  | a :: as, b :: bs => (lowerChar a == lowerChar b) && startsWithCI as bs

/-- Index of the first element satisfying `p`, or `l.length`. -/
def firstIdx (p : Char → Bool) : List Char → Nat
  | [] => 0
  | c :: rest => if p c then 0 else firstIdx p rest + 1

/-! ### The regex rule engine of `utils.clean_youtube_title`

Each pattern of the Python table is one of four shapes; for each shape a
matcher returns the length of the (leftmost-starting, greedy) match at the
head of the given suffix, mirroring `re.sub(pattern, "", s, re.IGNORECASE)`
semantics: `.` does not cross a newline, `\b` is a word boundary, `\s`
may cross a newline, alternatives are matched case-insensitively. -/

/-- Matcher for `\(.*\bW\b.*\)` (and the `[...]` variant): an opening
bracket, then inside the newline-free region a word-bounded occurrence of
`w`, extending greedily to the last closing bracket of the region. -/
def matchWordSpan (opc clc : Char) (w : List Char) : List Char → Option Nat
  | [] => none
  | c :: v =>
    if c == opc then
      let nl := firstIdx (· == '\n') v
      let ks := (List.range (nl + 1)).filter (fun k =>
        startsWithCI w (v.drop k) &&
        (k == 0 || !isWordChar (v.getD (k - 1) ' ')) &&
        (match v.drop (k + w.length) with
         | [] => true
         | d :: _ => !isWordChar d))
      let closes := (List.range nl).filter (fun j => v.getD j ' ' == clc)
      match closes.getLast? with
      | none => none
      | some j =>
        if ks.any (fun k => k + w.length ≤ j) then some (j + 2) else none
    else none

/-- Matcher for `\(\s*TAG\s*\)` (and the `[...]` variant), e.g. `(HD)`. -/
def matchTagSpan (opc clc : Char) (tag : List Char) : List Char → Option Nat
  | [] => none
  | c :: v =>
    if c == opc then
      let v1 := v.dropWhile isPyWs
      if startsWithCI tag v1 then
        let v2 := (v1.drop tag.length).dropWhile isPyWs
        match v2 with
        | d :: _ => if d == clc then some (1 + (v.length - v2.length) + 1) else none
        | [] => none
      else none
    else none

/-- Matcher for `\(PREF[^)]+\)` and `\[PREF[^)]+\]` (feat./ft./prod.
credits).  The character class excludes `)` in both variants, exactly as
in the source; the greedy run ends at the last closing bracket before the
first `)`. -/
def matchCreditSpan (opc clc : Char) (pref : List Char) : List Char → Option Nat
  | [] => none
  | c :: v =>
    if c == opc && startsWithCI pref v then
      let rest := v.drop pref.length
      let lim := firstIdx (· == ')') rest
      if clc == ')' then
        if decide (1 ≤ lim) && decide (lim < rest.length) then
          some (1 + pref.length + lim + 1)
        else none
      else
        let js := (List.range lim).filter (fun j => rest.getD j ' ' == clc)
        match js.getLast? with
        | some j => if decide (1 ≤ j) then some (1 + pref.length + j + 1) else none
        | none => none
    else none

/-- Matcher for `\s*#\w+` (hashtag removal). -/
def matchHashtag : List Char → Option Nat
  | u =>
    let ws := u.takeWhile isPyWs
    match u.drop ws.length with
    | '#' :: r =>
      let wr := r.takeWhile isWordChar
      if wr.length ≥ 1 then some (ws.length + 1 + wr.length) else none
    | _ => none

/-- Matcher for `\(\s*\)` / `\[\s*\]` (now-empty bracket collapse). -/
def matchEmptySpan (opc clc : Char) : List Char → Option Nat
  | [] => none
  | c :: v =>
    if c == opc then
      let ws := v.takeWhile isPyWs
      match v.drop ws.length with
      | d :: _ => if d == clc then some (ws.length + 2) else none
      | [] => none
    else none

/-- `re.sub(pattern, "", s)`: scan left to right, removing each
non-overlapping match and resuming after it.  Fuel is the input length
(every step consumes at least one character). -/
def subAllAux (m : List Char → Option Nat) : Nat → List Char → List Char
  | 0, s => s
  | _ + 1, [] => []
  | fuel + 1, c :: rest =>
    match m (c :: rest) with
    | some n =>
      if n ≤ 1 then subAllAux m fuel rest
      else subAllAux m fuel (rest.drop (n - 1))
    | none => c :: subAllAux m fuel rest

def subAll (m : List Char → Option Nat) (s : List Char) : List Char :=
  subAllAux m s.length s

/-- The ordered pattern table of `utils.clean_youtube_title`
(`patterns_to_remove`), transcribed rule by rule in source order. -/
def titlePatterns : List (List Char → Option Nat) :=
  [ matchWordSpan '(' ')' "soundtrack".data
  , matchWordSpan '[' ']' "soundtrack".data
  , matchWordSpan '(' ')' "official music video".data
  , matchWordSpan '[' ']' "official music video".data
  , matchWordSpan '(' ')' "official video".data
  , matchWordSpan '[' ']' "official video".data
  , matchWordSpan '(' ')' "official lyric video".data
  , matchWordSpan '[' ']' "official lyric video".data
  , matchWordSpan '(' ')' "lyric video".data
  , matchWordSpan '[' ']' "lyric video".data
  , matchWordSpan '(' ')' "lyrics".data
  , matchWordSpan '[' ']' "lyrics".data
  , matchWordSpan '(' ')' "official audio".data
  , matchWordSpan '[' ']' "official audio".data
  , matchWordSpan '(' ')' "audio".data
  , matchWordSpan '[' ']' "audio".data
  , matchWordSpan '(' ')' "visualizer".data
  , matchWordSpan '[' ']' "visualizer".data
  , matchWordSpan '(' ')' "full album".data
  , matchWordSpan '[' ']' "full album".data
  , matchWordSpan '(' ')' "live".data
  , matchWordSpan '[' ']' "live".data
  , matchTagSpan '(' ')' "hd".data
  , matchTagSpan '[' ']' "hd".data
  , matchTagSpan '(' ')' "hq".data
  , matchTagSpan '[' ']' "hq".data
  , matchTagSpan '(' ')' "4k".data
  , matchTagSpan '[' ']' "4k".data
  , matchCreditSpan '(' ')' "feat.".data
  , matchCreditSpan '[' ']' "feat.".data
  , matchCreditSpan '(' ')' "ft.".data
  , matchCreditSpan '[' ']' "ft.".data
  , matchCreditSpan '(' ')' "prod.".data
  , matchCreditSpan '[' ']' "prod.".data
  , matchHashtag
  ]

/-- Trailing-separator characters stripped at the end of
`clean_youtube_title` (`" \t\n\r-_|"`). -/
def sepChars : List Char := [' ', '\t', '\n', '\r', '-', '_', '|']

/-- `utils.clean_youtube_title`: apply the ordered pattern rules, drop
now-empty `()`/`[]` spans, strip lingering separators, trim. -/
def clean_youtube_title (title : String) : String :=
  if title = "" then ""
  else
    let t := titlePatterns.foldl (fun acc m => subAll m acc) title.data
    let t := subAll (matchEmptySpan '(' ')') t
    let t := subAll (matchEmptySpan '[' ']') t
    let t := stripCharsList sepChars t
    ⟨pyStripList t⟩

/-! ### `utils.parse_artist_song_from_title` -/

/-- Python truthiness of an optional string (`None` and `""` are falsy). -/
def strTruthy : Option String → Bool
  | some s => !(s == "")
  | none => false

/-- `x if x else None` for an optional string. -/
def optTruthy : Option String → Option String
  | some s => if s = "" then none else some s
  | none => none

/-- Does `l` end with `w`, compared case-insensitively (ASCII)? -/
def endsWithCI (w l : List Char) : Bool :=
  startsWithCI w.reverse l.reverse

/-- Alternatives of the channel-suffix rule, in source order. -/
def channelSuffixWords : List (List Char) :=
  ["VEVO".data, "Music".data, "Official".data, "Records".data, "Label".data]

/-- `re.sub(r"\s*(VEVO|Music|Official|Records|Label)$", "", ch, re.IGNORECASE)`:
`$` matches at the end or just before one final newline; the matched word
and the whitespace run immediately before it are removed. -/
def stripChannelSuffix (s : List Char) : List Char :=
  let bt : List Char × List Char :=
    match s.getLast? with
    | some '\n' => (s.dropLast, ['\n'])
    | _ => (s, [])
  match channelSuffixWords.find? (fun w => endsWithCI w bt.1) with
  | some w => dropTrailing isPyWs (bt.1.take (bt.1.length - w.length)) ++ bt.2
  | none => s

/-- The channel-as-artist fallback of `parse_artist_song_from_title`:
`cleaned_channel if cleaned_channel else channel_title`. -/
def channelArtist (ch : String) : String :=
  let cc := pyStrip ⟨stripChannelSuffix ch.data⟩
  if cc = "" then ch else cc

/-- Characters stripped from artist and song in the final cleanup
(`" \t\n\r-_|[]()"`). -/
def specialChars : List Char :=
  [' ', '\t', '\n', '\r', '-', '_', '|', '[', ']', '(', ')']

def stripSpecial (s : String) : String := ⟨stripCharsList specialChars s.data⟩

/-- `utils.parse_artist_song_from_title`, with the external
`youtube_title_parse.get_artist_title` delegate passed in as a
parameter. -/
def parse_artist_song_from_title (delegate : String → Option (String × String))
    (cleaned_title : String) (channel_title : Option String) :
    Option String × Option String :=
  if cleaned_title = "" then (none, none)
  else
    let chanArtist : Option String :=
      if strTruthy channel_title then some (channelArtist (channel_title.getD ""))
      else none
    let p : Option String × Option String :=
      match delegate cleaned_title with
      | some (pa, ps) =>
        if 1 < pa.length ∧ 1 < ps.length then (some pa, some ps)
        else (chanArtist, some cleaned_title)
      | none => (chanArtist, some cleaned_title)
    let artist1 : Option String :=
      match p.1 with
      | some a => if a = "" then some a else some (stripSpecial a)
      | none => none
    let song1 : Option String :=
      match p.2 with
      | some s => if s = "" then some s else some (stripSpecial s)
      | none => none
    let artist2 : Option String :=
      if ((artist1 == none) || (artist1 == some "")) && strTruthy channel_title then
        some (channelArtist (channel_title.getD ""))
      else artist1
    (artist2, song1)

/-! ### Data model (`models.py`)

Pydantic's `str_strip_whitespace=True` strips whitespace on string
fields at model construction; `mkSpotifyTrack` below applies it when a
raw search item is promoted into a `SpotifyTrack`. -/

structure YouTubeSong where
  video_id : String
  original_title : String
  channel_title : String
  parsed_artist : Option String
  parsed_song_name : Option String
  video_url : String
deriving DecidableEq, Repr

structure SpotifyTrack where
  uri : String
  name : String
  artists : List String
  spotify_id : String
  album_name : Option String
  duration_ms : Option Int
  external_url : Option String
deriving DecidableEq, Repr

structure MigrationResult where
  youtube_song : YouTubeSong
  spotify_track : Option SpotifyTrack
  match_score : Option Nat
  status : String
  message : Option String
deriving DecidableEq, Repr

/-- A raw track record as returned by the remote search
(`results["tracks"]["items"][i]`); every field is optional, as
`item.get(...)` may yield `None`. -/
structure RawTrack where
  name : Option String
  artists : List (Option String)
  uri : Option String
  id : Option String
  album_name : Option String
  duration_ms : Option Int
  external_url : Option String
deriving DecidableEq, Repr

/-- `[artist.get("name") for artist in item.get("artists", []) if artist.get("name")]`. -/
def artistNames (t : RawTrack) : List String :=
  t.artists.filterMap fun o =>
    match o with
    | some n => if n = "" then none else some n
    | none => none

/-- Promotion of a raw item into `models.SpotifyTrack` (the constructor
call in the scoring loop), with pydantic whitespace stripping. -/
def mkSpotifyTrack (t : RawTrack) : SpotifyTrack :=
  { uri := pyStrip (t.uri.getD "")
    name := pyStrip (t.name.getD "")
    artists := (artistNames t).map pyStrip
    spotify_id := pyStrip (t.id.getD "")
    album_name := t.album_name.map pyStrip
    duration_ms := t.duration_ms
    external_url := t.external_url }

/-! ### The candidate scorer of `SpotifyClient.search_track`

The external similarity metric `fuzz.token_set_ratio` is passed in as a
parameter `score`. -/

/-- `if not spotify_name or not spotify_artists_list: continue`. -/
def validTrack (t : RawTrack) : Bool :=
  strTruthy t.name && !(artistNames t).isEmpty

/-- `if spotify_uri and spotify_id:` — truthiness of both identifiers. -/
def uriIdOk (t : RawTrack) : Bool :=
  strTruthy t.uri && strTruthy t.id

/-- `f"{' & '.join(spotify_artists_list)} {spotify_name}".strip()`. -/
def candString (t : RawTrack) : String :=
  pyStrip (String.intercalate " & " (artistNames t) ++ " " ++ t.name.getD "")

/-- The similarity score computed for one candidate. -/
def scoreOf (score : String → String → Nat) (targetLower : String) (t : RawTrack) : Nat :=
  score targetLower (lowerStr (candString t))

/-- The scoring `for` loop, carrying `best_match` and `highest_score`. -/
def scoreLoop (score : String → String → Nat) (targetLower : String) (θ : Nat) :
    List RawTrack → Option SpotifyTrack → Nat → Option SpotifyTrack × Nat
  | [], best, highest => (best, highest)
  | t :: rest, best, highest =>
    if validTrack t then
      let sc := scoreOf score targetLower t
      if θ ≤ sc ∧ highest < sc then
        scoreLoop score targetLower θ rest
          (if uriIdOk t then some (mkSpotifyTrack t) else best) sc
      else scoreLoop score targetLower θ rest best highest
    else scoreLoop score targetLower θ rest best highest

/-- The scorer: run the loop from `(None, 0)` and return
`(best_match, highest_score)` when a best match was set, else `None`. -/
def score_and_select (score : String → String → Nat) (targetLower : String)
    (θ : Nat) (tracks : List RawTrack) : Option (SpotifyTrack × Nat) :=
  match scoreLoop score targetLower θ tracks none 0 with
  | (some b, h) => some (b, h)
  | (none, _) => none

/-! ### The two-attempt search policy of `SpotifyClient.search_track`

The two remote calls are passed in as oracles `targeted` and `broader`
(`Except Unit` models a raised `SpotifyException`/`Exception`). -/

structure SearchTrace where
  /-- The targeted query string, when a targeted attempt was issued. -/
  targetedQuery : Option String
  /-- Whether the broader free-text attempt was issued. -/
  broaderIssued : Bool
  result : Option (SpotifyTrack × Nat)
deriving DecidableEq, Repr

/-- The common scoring block (target-string construction plus the
scoring loop) applied to whichever attempt produced `tracks`. -/
def scoreBlock (score : String → String → Nat) (θ : Nat) (yt : YouTubeSong)
    (tracks : List RawTrack) : Option (SpotifyTrack × Nat) :=
  let target0 := pyStrip (((optTruthy yt.parsed_artist).getD "") ++ " " ++ yt.parsed_song_name.getD "")
  let target1 :=
    if target0 = "" ∧ yt.original_title ≠ "" then clean_youtube_title yt.original_title
    else target0
  if target1 = "" then none
  else score_and_select score (lowerStr target1) θ tracks

/-- The targeted query string
(`track:{song} artist:{artist}` when the artist is truthy, else
`track:{song}`). -/
def targetedQueryOf (yt : YouTubeSong) : String :=
  match optTruthy yt.parsed_artist with
  | some a => "track:" ++ yt.parsed_song_name.getD "" ++ " artist:" ++ a
  | none => "track:" ++ yt.parsed_song_name.getD ""

/-- The broader free-text query
(`f"{parsed_artist or ''} {parsed_song_name}".strip()`). -/
def simpleQueryOf (yt : YouTubeSong) : String :=
  pyStrip (((optTruthy yt.parsed_artist).getD "" ++ " ") ++ yt.parsed_song_name.getD "")

/-- `SpotifyClient.search_track`, instrumented with which attempts were
issued. -/
def search_track (score : String → String → Nat) (θ : Nat) (yt : YouTubeSong)
    (targeted broader : Except Unit (List RawTrack)) : SearchTrace :=
  if !(strTruthy yt.parsed_song_name) then ⟨none, false, none⟩
  else
    let tracks0 := match targeted with | .ok l => l | .error _ => []
    if tracks0.isEmpty then
      if simpleQueryOf yt = "" then ⟨some (targetedQueryOf yt), false, none⟩
      else
        match broader with
        | .error _ => ⟨some (targetedQueryOf yt), true, none⟩
        | .ok l =>
          if l.isEmpty then ⟨some (targetedQueryOf yt), true, none⟩
          else ⟨some (targetedQueryOf yt), true, scoreBlock score θ yt l⟩
    else ⟨some (targetedQueryOf yt), false, scoreBlock score θ yt tracks0⟩

/-! ### The cache and orchestration loop of `main.run_migration`

The remote `sp_client.search_track` is passed in as an oracle `search`;
the state additionally records (`searchLog`) the cache key of every
remote search issued, to express call-count properties. -/

abbrev CacheKey := Option String × String

/-- The cache lookup key
(`(artist.lower().strip() if artist else None, song.lower().strip())`). -/
def cacheKey (yt : YouTubeSong) : CacheKey :=
  (match optTruthy yt.parsed_artist with
   | some a => some (pyStrip (lowerStr a))
   | none => none,
   pyStrip (lowerStr (yt.parsed_song_name.getD "")))

/-- The cache lookup key of a song, or `none` for an item
short-circuited to SKIPPED. -/
def lookupKeyOf? (yt : YouTubeSong) : Option CacheKey :=
  if strTruthy yt.parsed_song_name then some (cacheKey yt) else none

/-- Lookup in the cache (modelling the Python `dict`). -/
def findCache (k : CacheKey) :
    List (CacheKey × Option SpotifyTrack) → Option (Option SpotifyTrack)
  | [] => none
  | (k', v) :: rest => if k' = k then some v else findCache k rest

structure RunState where
  cache : List (CacheKey × Option SpotifyTrack)
  successes : List MigrationResult
  not_found : List MigrationResult
  uris_to_add : List String
  searchLog : List CacheKey
deriving Repr

def initRunState : RunState := ⟨[], [], [], [], []⟩

/-- Python `repr` of an optional string (quotes around a string, `None`
otherwise); used by the f-string messages that interpolate the key. -/
def pyReprOptStr : Option String → String
  | none => "None"
  | some s => "\x27" ++ s ++ "\x27"

def pyReprKey (k : CacheKey) : String :=
  "(" ++ pyReprOptStr k.1 ++ ", " ++ pyReprOptStr (some k.2) ++ ")"

/-- One iteration of the per-song loop of `run_migration`, returning the
updated state and the `MigrationResult` created for this item. -/
def processSong (search : YouTubeSong → Option (SpotifyTrack × Nat))
    (st : RunState) (yt : YouTubeSong) : RunState × MigrationResult :=
  if !(strTruthy yt.parsed_song_name) then
    let r : MigrationResult := ⟨yt, none, none, "SKIPPED", some "Missing parsed song name."⟩
    ({ st with not_found := st.not_found ++ [r] }, r)
  else
    let k : CacheKey := cacheKey yt
    match findCache k st.cache with
    | some (some tr) =>
      let r : MigrationResult :=
        ⟨yt, some tr, none, "SUCCESS (Cached)",
         some ("Reused cached Spotify track \x27" ++ tr.name ++ "\x27")⟩
      ({ st with uris_to_add := st.uris_to_add ++ [tr.uri],
                 successes := st.successes ++ [r] }, r)
    | some none =>
      let r : MigrationResult :=
        ⟨yt, none, none, "NOT_FOUND (Cached)",
         some ("Reused cached \x27not found\x27 status for " ++ pyReprKey k)⟩
      ({ st with not_found := st.not_found ++ [r] }, r)
    | none =>
      let st1 := { st with searchLog := st.searchLog ++ [k] }
      match search yt with
      | some (tr, sc) =>
        let r : MigrationResult :=
          ⟨yt, some tr, some sc, "SUCCESS",
           some ("Found Spotify track \x27" ++ tr.name ++ "\x27 (Score: " ++ toString sc ++ ")")⟩
        ({ st1 with cache := (k, some tr) :: st1.cache,
                    uris_to_add := st1.uris_to_add ++ [tr.uri],
                    successes := st1.successes ++ [r] }, r)
      | none =>
        let r : MigrationResult :=
          ⟨yt, none, none, "NOT_FOUND",
           some "No suitable match found on Spotify or search error occurred."⟩
        ({ st1 with cache := (k, none) :: st1.cache,
                    not_found := st1.not_found ++ [r] }, r)

/-- The per-song loop over the fetched playlist, also collecting the
per-item results in processing order. -/
def run_migration_loop (search : YouTubeSong → Option (SpotifyTrack × Nat))
    (songs : List YouTubeSong) : RunState × List MigrationResult :=
  songs.foldl
    (fun acc yt =>
      let p := processSong search acc.1 yt
      (p.1, acc.2 ++ [p.2]))
    (initRunState, [])

/-! ### `SpotifyClient.add_tracks_to_playlist` (`config.py` limit) -/

def SPOTIFY_MAX_TRACKS_PER_ADD_REQUEST : Nat := 100

/-- The consecutive slices `track_uris[i*limit : (i+1)*limit]` for
`i < num_batches`, `num_batches = ceil(len/limit)`. -/
def addBatches (track_uris : List String) : List (List String) :=
  (List.range ((track_uris.length + SPOTIFY_MAX_TRACKS_PER_ADD_REQUEST - 1) /
      SPOTIFY_MAX_TRACKS_PER_ADD_REQUEST)).map
    fun i => (track_uris.drop (i * SPOTIFY_MAX_TRACKS_PER_ADD_REQUEST)).take
      SPOTIFY_MAX_TRACKS_PER_ADD_REQUEST

/-- `SpotifyClient.add_tracks_to_playlist`: the remote
`playlist_add_items` call is the oracle `addOk`; returns the overall
success flag and the list of issued batches. -/
def add_tracks_to_playlist (addOk : String → List String → Bool)
    (playlist_id : String) (track_uris : List String) : Bool × List (List String) :=
  if track_uris.isEmpty then (true, [])
  else
    let batches := addBatches track_uris
    (batches.all (addOk playlist_id), batches)

/-! ## Theorems -/

/-! ### Batching (claims C8 and C10) -/

lemma chunks_flatten (n : Nat) : ∀ l : List String, l.length ≤ n * 100 →
    ((List.range n).map fun i => (l.drop (i * 100)).take 100).flatten = l := by
  induction n with
  | zero =>
    intro l hl
    have : l = [] := List.eq_nil_of_length_eq_zero (Nat.le_zero.mp hl)
    subst this
    simp
  | succ k ih =>
    intro l hl
    rw [List.range_succ_eq_map, List.map_cons, List.map_map, List.flatten_cons]
    have h1 : List.map ((fun i => (l.drop (i * 100)).take 100) ∘ Nat.succ) (List.range k)
        = List.map (fun i => ((l.drop 100).drop (i * 100)).take 100) (List.range k) := by
      apply List.map_congr_left
      intro a _
      simp only [Function.comp_apply, List.drop_drop]
      congr 2
      omega
    rw [h1, ih (l.drop 100) (by simp only [List.length_drop]; omega)]
    simp only [Nat.zero_mul, List.drop_zero]
    exact List.take_append_drop 100 l

/-- C8: adding `n` URIs issues exactly `ceil(n/100)` add-calls over
consecutive slices — every slice of size 100 except a smaller, non-empty
final remainder — whose concatenation is exactly the input list; with
105 URIs the batch sizes are `[100, 5]`. -/
theorem C8_batch_chunking (addOk : String → List String → Bool) (pid : String)
    (uris : List String) :
    ((add_tracks_to_playlist addOk pid uris).2).flatten = uris
    ∧ ((add_tracks_to_playlist addOk pid uris).2).length = (uris.length + 99) / 100
    ∧ (∀ b ∈ ((add_tracks_to_playlist addOk pid uris).2).dropLast, b.length = 100)
    ∧ (∀ b ∈ (add_tracks_to_playlist addOk pid uris).2, 1 ≤ b.length ∧ b.length ≤ 100)
    ∧ (uris.length = 105 →
        ((add_tracks_to_playlist addOk pid uris).2).map List.length = [100, 5]) := by
  by_cases hnil : uris = []
  · subst hnil
    refine ⟨rfl, rfl, ?_, ?_, ?_⟩ <;> simp [add_tracks_to_playlist]
  · have hne : uris.isEmpty = false := by
      cases uris with
      | nil => exact absurd rfl hnil
      | cons a l => rfl
    have hbatch : (add_tracks_to_playlist addOk pid uris).2 = addBatches uris := by
      simp [add_tracks_to_playlist, hne]
    have hlen1 : 1 ≤ uris.length := by
      cases uris with
      | nil => exact absurd rfl hnil
      | cons a l => simp
    rw [hbatch]
    refine ⟨?_, ?_, ?_, ?_, ?_⟩
    · have hle : uris.length ≤ ((uris.length + 100 - 1) / 100) * 100 := by omega
      simpa only [addBatches, SPOTIFY_MAX_TRACKS_PER_ADD_REQUEST] using
        chunks_flatten ((uris.length + 100 - 1) / 100) uris hle
    · simp only [addBatches, SPOTIFY_MAX_TRACKS_PER_ADD_REQUEST, List.length_map,
        List.length_range]
      omega
    · intro b hb
      simp only [addBatches, SPOTIFY_MAX_TRACKS_PER_ADD_REQUEST] at hb
      obtain ⟨k, hk⟩ : ∃ k, (uris.length + 100 - 1) / 100 = k + 1 := by
        refine ⟨(uris.length + 100 - 1) / 100 - 1, ?_⟩
        omega
      rw [hk, List.range_succ, List.map_append, List.map_singleton,
        List.dropLast_concat] at hb
      obtain ⟨i, hi, hib⟩ := List.mem_map.mp hb
      rw [List.mem_range] at hi
      rw [← hib]
      simp only [List.length_take, List.length_drop]
      omega
    · intro b hb
      simp only [addBatches, SPOTIFY_MAX_TRACKS_PER_ADD_REQUEST] at hb
      obtain ⟨i, hi, hib⟩ := List.mem_map.mp hb
      rw [List.mem_range] at hi
      rw [← hib]
      simp only [List.length_take, List.length_drop]
      omega
    · intro h105
      simp only [addBatches, SPOTIFY_MAX_TRACKS_PER_ADD_REQUEST]
      have h2 : (uris.length + 100 - 1) / 100 = 2 := by omega
      rw [h2, show List.range 2 = [0, 1] from rfl]
      simp only [List.map_cons, List.map_nil, List.length_take, List.length_drop]
      rw [h105]
      norm_num

/-- 105 concrete track URIs. -/
def wUris105 : List String := (List.range 105).map fun i => "uri" ++ toString i

/-- C8 (witness): adding 105 concrete URIs issues exactly two batches,
of sizes 100 and 5. -/
theorem C8_witness :
    ((add_tracks_to_playlist (fun _ _ => true) "pid" wUris105).2).map List.length
      = [100, 5] :=
  (C8_batch_chunking (fun _ _ => true) "pid" wUris105).2.2.2.2 (by decide)

/-- C10: the add-tracks operation on an empty URI list returns success
with zero issued add-calls, for every playlist id. -/
theorem C10_add_empty_list (addOk : String → List String → Bool) (pid : String) :
    add_tracks_to_playlist addOk pid [] = (true, []) := rfl

/-! ### Title normalization (claim C6) -/

/-- The normalization inputs exercised by the repository's test suite
(`tests/test_utils.py::test_clean_youtube_title`). -/
def testedTitles : List String :=
  [ "Artist - Song (Official Music Video) [HD]"
  , "My Awesome Song (Lyrics Video) #Pop #Rock"
  , "Track Title (feat. Guest Artist) (prod. by Producer)"
  , "Song Name (Official Audio) | Visualizer"
  , "Live Performance (Live at Venue)"
  , "Cool Song (Full Album Version)"
  , "  Some Song with Spaces   "
  , "Artist - Song - Part 2 (Remastered)"
  , "NoSuffixesHere"
  , ""
  , "Artist - Song (weird suffix not in list)"
  , "Song Title (Soundtrack Version)"
  , " leading spaces - Artist - Song - trailing spaces "
  , "Artist | Song | Extra (Official)"
  , "Artist - Song (ft. Someone) (HD)"
  , "Artist - Song (HQ) [4K]"
  , "Song (From \"Movie\") (Audio)"
  ]

set_option maxRecDepth 10000 in
/-- C6 (counterexample): normalization is not idempotent for every input.
Removing the `(feat. y)` credit from `"(au(feat. y)dio)"` creates the new
boilerplate span `"(audio)"`, which survives the first pass but is removed
by a second one. -/
theorem C6_counterexample :
    clean_youtube_title "(au(feat. y)dio)" = "(audio)"
    ∧ clean_youtube_title (clean_youtube_title "(au(feat. y)dio)") = ""
    ∧ clean_youtube_title (clean_youtube_title "(au(feat. y)dio)")
        ≠ clean_youtube_title "(au(feat. y)dio)" :=
  ⟨by decide, by decide, by decide⟩

set_option maxRecDepth 10000 in
/-- C6 (amended): a second normalization pass changes nothing on each of
the titles exercised by the repository's normalization tests. -/
theorem C6_idempotent_on_tested_titles :
    testedTitles.all
      (fun t => clean_youtube_title (clean_youtube_title t) == clean_youtube_title t)
      = true := by
  decide

/-! ### The splitter fallback (claim C4) -/

lemma channelArtist_ne_empty (ch : String) (h : ch ≠ "") : channelArtist ch ≠ "" := by
  show (if pyStrip ⟨stripChannelSuffix ch.data⟩ = "" then ch
        else pyStrip ⟨stripChannelSuffix ch.data⟩) ≠ ""
  by_cases hc : pyStrip ⟨stripChannelSuffix ch.data⟩ = ""
  · rw [if_pos hc]; exact h
  · rw [if_neg hc]; exact hc

lemma strTruthy_getD {o : Option String} (h : strTruthy o = true) : o.getD "" ≠ "" := by
  cases o with
  | none => simp [strTruthy] at h
  | some s =>
    simp only [strTruthy, Bool.not_eq_true', beq_eq_false_iff_ne, ne_eq] at h
    simpa using h

/-- C4 (counterexample): when the delegate fails, the splitter does not
return the whole normalized title as the song — the final cleanup strips
separator and bracket characters, so `"[abc"` becomes `"abc"`. -/
theorem C4_counterexample :
    parse_artist_song_from_title (fun _ => none) "[abc" none = (none, some "abc")
    ∧ (some "abc" : Option String) ≠ some "[abc" :=
  ⟨by decide, by decide⟩

/-- C4 (amended): for a non-empty normalized title, when the delegate
fails or either returned part has length ≤ 1, the delegate's parts are
never used: the song is the normalized title stripped of leading and
trailing whitespace/separator/bracket characters, and the artist is the
channel name with a trailing VEVO/Music/Official/Records/Label suffix
stripped (the raw channel name if that leaves it empty), itself then
stripped of those characters (falling back to the unstripped derived
value if this second strip empties it); the artist is null when no
channel name is provided. -/
theorem C4_low_confidence_fallback (delegate : String → Option (String × String))
    (title : String) (channel : Option String) (ht : title ≠ "")
    (hd : delegate title = none ∨
      ∃ pa ps, delegate title = some (pa, ps) ∧ (pa.length ≤ 1 ∨ ps.length ≤ 1)) :
    parse_artist_song_from_title delegate title channel =
      ((if strTruthy channel then
          some (if stripSpecial (channelArtist (channel.getD "")) = ""
                then channelArtist (channel.getD "")
                else stripSpecial (channelArtist (channel.getD "")))
        else none),
       some (stripSpecial title)) := by
  have hfall :
      parse_artist_song_from_title delegate title channel =
        parse_artist_song_from_title (fun _ => none) title channel := by
    rcases hd with hnone | ⟨pa, ps, hsome, hle⟩
    · simp only [parse_artist_song_from_title, hnone]
    · have hgate : ¬(1 < pa.length ∧ 1 < ps.length) := by omega
      simp only [parse_artist_song_from_title, hsome, if_neg hgate]
  rw [hfall]
  by_cases hch : strTruthy channel = true
  · have hchne : channel.getD "" ≠ "" := strTruthy_getD hch
    have hca : channelArtist (channel.getD "") ≠ "" := channelArtist_ne_empty _ hchne
    by_cases hs : stripSpecial (channelArtist (channel.getD "")) = ""
    · simp only [parse_artist_song_from_title, if_neg ht, hch, if_true, if_pos hs,
        if_neg hca, if_neg ht, hs]
      simp [hs]
    · simp only [parse_artist_song_from_title, if_neg ht, hch, if_true,
        if_neg hca, if_neg hs]
      simp [hs]
  · have hch' : strTruthy channel = false := by
      cases h : strTruthy channel
      · rfl
      · exact absurd h hch
    simp [parse_artist_song_from_title, if_neg ht, hch']

/-- C4 (witness): the amended statement at the test-suite inputs — a
failing delegate, title `"Actual Full Cleaned Title"`, channel
`"Artist Channel VEVO"` — yields the channel-derived artist
`"Artist Channel"` and the full title as the song. -/
theorem C4_witness :
    parse_artist_song_from_title (fun _ => none) "Actual Full Cleaned Title"
      (some "Artist Channel VEVO")
      = (some "Artist Channel", some "Actual Full Cleaned Title") := by
  have h := C4_low_confidence_fallback (fun _ => none) "Actual Full Cleaned Title"
    (some "Artist Channel VEVO") (by decide) (Or.inl rfl)
  rw [h]
  decide

/-! ### Status tags and cached scores (claims C7 and C9)

Concrete data used by witnesses and counterexamples. -/

def wTrack : SpotifyTrack :=
  ⟨"spotify:track:T1", "SongX", ["ArtistX"], "T1", none, none, none⟩

def wSearch : YouTubeSong → Option (SpotifyTrack × Nat) := fun _ => some (wTrack, 90)

def wYt (i : String) (artist song : Option String) : YouTubeSong :=
  ⟨"vid" ++ i, "Title " ++ i, "Chan", artist, song, "http://example.com/" ++ i⟩

def wSongA : YouTubeSong := wYt "1" (some "ArtistX") (some "SongX")

def wSongB : YouTubeSong := wYt "2" (some "artistx  ") (some "  songx")

/-- The status tags `run_migration` actually emits. -/
def allowedStatuses : List String :=
  ["SUCCESS", "SUCCESS (Cached)", "NOT_FOUND", "NOT_FOUND (Cached)", "SKIPPED"]

lemma lookupKeyOf?_eq_some {yt : YouTubeSong} {k : CacheKey}
    (h : lookupKeyOf? yt = some k) :
    strTruthy yt.parsed_song_name = true ∧ k = cacheKey yt := by
  unfold lookupKeyOf? at h
  by_cases hs : strTruthy yt.parsed_song_name = true
  · rw [if_pos hs] at h
    exact ⟨hs, (Option.some_inj.mp h).symm⟩
  · rw [if_neg hs] at h
    exact absurd h (by simp)

lemma processSong_status_mem (search : YouTubeSong → Option (SpotifyTrack × Nat))
    (st : RunState) (yt : YouTubeSong) :
    (processSong search st yt).2.status ∈ allowedStatuses := by
  unfold processSong
  by_cases hs : strTruthy yt.parsed_song_name = true
  · simp only [hs, Bool.not_true, Bool.false_eq_true, if_false]
    cases hfc : findCache (cacheKey yt) st.cache with
    | some v =>
      cases v with
      | some tr => simp [allowedStatuses]
      | none => simp [allowedStatuses]
    | none =>
      cases hsr : search yt with
      | some p => simp [allowedStatuses]
      | none => simp [allowedStatuses]
  · have hs' : strTruthy yt.parsed_song_name = false := by
      cases h : strTruthy yt.parsed_song_name
      · rfl
      · exact absurd h hs
    simp [hs', allowedStatuses]

/-- C7 (counterexample): a successfully matched item carries the status
tag `"SUCCESS"`, which is not among the tags the claim lists. -/
theorem C7_counterexample :
    (run_migration_loop wSearch [wSongA]).2.map MigrationResult.status = ["SUCCESS"]
    ∧ "SUCCESS" ∉ (["MATCHED", "MATCHED_FROM_CACHE", "NOT_FOUND",
        "NOT_FOUND_FROM_CACHE", "SKIPPED"] : List String) :=
  ⟨by decide, by decide⟩

/-- C7 (amended): every per-item verdict carries a status from
{SUCCESS, SUCCESS (Cached), NOT_FOUND, NOT_FOUND (Cached), SKIPPED};
the cached variants are emitted exactly on cache hits, following the
stored verdict; SUCCESS/NOT_FOUND are emitted on cache misses following
the search outcome; SKIPPED is emitted when the parsed song name is
absent. -/
theorem C7_status_tags (search : YouTubeSong → Option (SpotifyTrack × Nat)) :
    (∀ songs, ∀ r ∈ (run_migration_loop search songs).2, r.status ∈ allowedStatuses)
    ∧ (∀ (st : RunState) (yt : YouTubeSong),
        (strTruthy yt.parsed_song_name = false →
          (processSong search st yt).2.status = "SKIPPED")
        ∧ ∀ k, lookupKeyOf? yt = some k →
            (∀ tr, findCache k st.cache = some (some tr) →
              (processSong search st yt).2.status = "SUCCESS (Cached)"
              ∧ (processSong search st yt).2.spotify_track = some tr)
            ∧ (findCache k st.cache = some none →
              (processSong search st yt).2.status = "NOT_FOUND (Cached)"
              ∧ (processSong search st yt).2.spotify_track = none)
            ∧ (findCache k st.cache = none →
              (∀ tr sc, search yt = some (tr, sc) →
                (processSong search st yt).2.status = "SUCCESS"
                ∧ (processSong search st yt).2.spotify_track = some tr)
              ∧ (search yt = none →
                (processSong search st yt).2.status = "NOT_FOUND"
                ∧ (processSong search st yt).2.spotify_track = none))) := by
  constructor
  · have hstep : ∀ (songs : List YouTubeSong) (acc : RunState × List MigrationResult),
        (∀ r ∈ acc.2, r.status ∈ allowedStatuses) →
        ∀ r ∈ (songs.foldl
          (fun acc yt =>
            let p := processSong search acc.1 yt
            (p.1, acc.2 ++ [p.2])) acc).2, r.status ∈ allowedStatuses := by
      intro songs
      induction songs with
      | nil => intro acc hacc; exact hacc
      | cons yt rest ih =>
        intro acc hacc
        refine ih _ ?_
        intro r hr
        rcases List.mem_append.mp hr with h | h
        · exact hacc r h
        · rcases List.mem_singleton.mp h with rfl
          exact processSong_status_mem search acc.1 yt
    intro songs
    exact hstep songs (initRunState, []) (by intro r hr; exact absurd hr (List.not_mem_nil r))
  · intro st yt
    constructor
    · intro hs
      unfold processSong
      simp [hs]
    · intro k hk
      obtain ⟨hs, rfl⟩ := lookupKeyOf?_eq_some hk
      refine ⟨?_, ?_, ?_⟩
      · intro tr hfc
        unfold processSong
        simp [hs, hfc]
      · intro hfc
        unfold processSong
        simp [hs, hfc]
      · intro hfc
        constructor
        · intro tr sc hsr
          unfold processSong
          simp [hs, hfc, hsr]
        · intro hsr
          unfold processSong
          simp [hs, hfc, hsr]

/-- C7 (witness): the amended statement at a concrete one-item run with
a successful search: the emitted status is `"SUCCESS"`. -/
theorem C7_witness :
    (processSong wSearch initRunState wSongA).2.status = "SUCCESS" := by
  have h := ((C7_status_tags wSearch).2 initRunState wSongA).2
    (some "artistx", "songx") (by decide)
  exact ((h.2.2 (by decide)).1 wTrack 90 rfl).1

/-- C9: an item resolved from the cache — for either stored verdict —
produces a result with a null match score (no score is stored in the
cache alongside the winning track). -/
theorem C9_cached_score_none (search : YouTubeSong → Option (SpotifyTrack × Nat))
    (st : RunState) (yt : YouTubeSong) (k : CacheKey)
    (hk : lookupKeyOf? yt = some k) (hc : (findCache k st.cache).isSome = true) :
    (processSong search st yt).2.match_score = none := by
  obtain ⟨hs, rfl⟩ := lookupKeyOf?_eq_some hk
  unfold processSong
  cases hfc : findCache (cacheKey yt) st.cache with
  | some v =>
    cases v with
    | some tr => simp [hs, hfc]
    | none => simp [hs, hfc]
  | none => rw [hfc] at hc; exact absurd hc (by simp)

/-- C9 (witness): a second item with the same normalized key as an
already matched one resolves from the cache with a null score. -/
theorem C9_witness :
    (processSong wSearch (processSong wSearch initRunState wSongA).1 wSongB).2.match_score
      = none :=
  C9_cached_score_none wSearch _ wSongB (some "artistx", "songx") (by decide) (by decide)

/-! ### The two-attempt search policy (claim C3) -/

lemma pyStripList_eq_nil_iff (l : List Char) :
    pyStripList l = [] ↔ ∀ c ∈ l, isPyWs c = true := by
  unfold pyStripList dropTrailing
  rw [List.reverse_eq_nil_iff, List.dropWhile_eq_nil_iff]
  simp only [List.mem_reverse]
  constructor
  · intro h c hc
    have hsplit := List.takeWhile_append_dropWhile isPyWs l
    rcases List.mem_append.mp (by rw [hsplit]; exact hc) with h1 | h1
    · exact List.mem_takeWhile_imp h1
    · exact h c h1
  · intro h c hc
    exact h c ((List.dropWhile_sublist isPyWs).subset hc)

/-- A string with a stripped, non-empty suffix does not strip to empty. -/
lemma pyStrip_append_ne_empty (pre song : String)
    (h1 : song ≠ "") (h2 : pyStrip song = song) : pyStrip (pre ++ song) ≠ "" := by
  intro hcontra
  have hall : ∀ c ∈ (pre ++ song).data, isPyWs c = true :=
    (pyStripList_eq_nil_iff _).mp (congrArg String.data hcontra)
  have hsong : ∀ c ∈ song.data, isPyWs c = true := by
    intro c hc
    refine hall c ?_
    rw [String.data_append]
    exact List.mem_append.mpr (Or.inr hc)
  have hnil : song.data = [] := by
    have hs2 : pyStripList song.data = song.data := congrArg String.data h2
    rw [← hs2]
    exact (pyStripList_eq_nil_iff _).mpr hsong
  exact h1 (String.ext hnil)

lemma search_track_targeted_hit (score : String → String → Nat) (θ : Nat)
    (yt : YouTubeSong) (broader : Except Unit (List RawTrack))
    (t : RawTrack) (ts : List RawTrack)
    (hs : strTruthy yt.parsed_song_name = true) :
    search_track score θ yt (.ok (t :: ts)) broader
      = ⟨some (targetedQueryOf yt), false, scoreBlock score θ yt (t :: ts)⟩ := by
  unfold search_track
  rw [if_neg (by simp [hs])]
  rfl

lemma search_track_targeted_empty (score : String → String → Nat) (θ : Nat)
    (yt : YouTubeSong) (targeted broader : Except Unit (List RawTrack))
    (hs : strTruthy yt.parsed_song_name = true) (hqs : simpleQueryOf yt ≠ "")
    (ht : (match targeted with | .ok l => l | .error _ => ([] : List RawTrack)) = []) :
    search_track score θ yt targeted broader =
      match broader with
      | .error _ => ⟨some (targetedQueryOf yt), true, none⟩
      | .ok l =>
        if l.isEmpty then ⟨some (targetedQueryOf yt), true, none⟩
        else ⟨some (targetedQueryOf yt), true, scoreBlock score θ yt l⟩ := by
  unfold search_track
  rw [if_neg (by simp [hs])]
  simp only [ht, List.isEmpty_nil, if_true, if_neg hqs]

/-- C3: a targeted query (separate artist and song filters when the
artist is known, else song-only) is always issued first; the broader
free-text query is issued exactly when the targeted attempt errors or
returns zero results; if both attempts yield zero results or error, the
item resolves to no match; if the targeted attempt errors but the
broader attempt returns results, those results feed the scorer.  The
hypotheses say the parsed song name is present and already
whitespace-stripped, as the pydantic model guarantees. -/
theorem C3_two_attempt_policy (score : String → String → Nat) (θ : Nat)
    (yt : YouTubeSong) (targeted broader : Except Unit (List RawTrack))
    (hs : strTruthy yt.parsed_song_name = true)
    (hstr : pyStrip (yt.parsed_song_name.getD "") = yt.parsed_song_name.getD "") :
    ((search_track score θ yt targeted broader).targetedQuery
      = some (match optTruthy yt.parsed_artist with
              | some a => "track:" ++ yt.parsed_song_name.getD "" ++ " artist:" ++ a
              | none => "track:" ++ yt.parsed_song_name.getD ""))
    ∧ ((search_track score θ yt targeted broader).broaderIssued = true
        ↔ (targeted = .error () ∨ targeted = .ok []))
    ∧ ((targeted = .error () ∨ targeted = .ok []) →
        (broader = .error () ∨ broader = .ok []) →
        (search_track score θ yt targeted broader).result = none)
    ∧ (∀ l, targeted = .error () → broader = .ok l → l ≠ [] →
        (search_track score θ yt targeted broader).result = scoreBlock score θ yt l) := by
  have hqs : simpleQueryOf yt ≠ "" :=
    pyStrip_append_ne_empty _ _ (strTruthy_getD hs) hstr
  rcases targeted with u | tl
  · cases u
    have hval := search_track_targeted_empty score θ yt (.error ()) broader hs hqs rfl
    rcases broader with u2 | bl
    · cases u2
      rw [hval]
      refine ⟨rfl, by simp, fun _ _ => rfl, ?_⟩
      intro l _ hcontra
      exact absurd hcontra (by simp)
    · cases bl with
      | nil =>
        rw [hval]
        refine ⟨rfl, by simp, fun _ _ => rfl, ?_⟩
        intro l _ hl hlne
        cases hl
        exact absurd rfl hlne
      | cons b bs =>
        rw [hval]
        refine ⟨rfl, by simp, ?_, ?_⟩
        · intro _ hcontra
          rcases hcontra with h | h <;> exact absurd h (by simp)
        · intro l _ hl _
          cases hl
          rfl
  · cases tl with
    | nil =>
      have hval := search_track_targeted_empty score θ yt (.ok []) broader hs hqs rfl
      rcases broader with u2 | bl
      · cases u2
        rw [hval]
        refine ⟨rfl, by simp, fun _ _ => rfl, ?_⟩
        intro l hcontra
        exact absurd hcontra (by simp)
      · cases bl with
        | nil =>
          rw [hval]
          refine ⟨rfl, by simp, fun _ _ => rfl, ?_⟩
          intro l hcontra
          exact absurd hcontra (by simp)
        | cons b bs =>
          rw [hval]
          refine ⟨rfl, by simp, ?_, ?_⟩
          · intro _ hcontra
            rcases hcontra with h | h <;> exact absurd h (by simp)
          · intro l hcontra
            exact absurd hcontra (by simp)
    | cons t ts =>
      have hval := search_track_targeted_hit score θ yt broader t ts hs
      rw [hval]
      refine ⟨rfl, by simp, ?_, ?_⟩
      · intro hcontra _
        rcases hcontra with h | h <;> exact absurd h (by simp)
      · intro l hcontra
        exact absurd hcontra (by simp)

/-- C3 (witness): with a present, stripped song name, an erroring
targeted attempt and an empty broader attempt, the broader query is
issued and the item resolves to no match. -/
theorem C3_witness :
    (search_track (fun _ _ => 0) 85 wSongA (.error ()) (.ok [])).broaderIssued = true
    ∧ (search_track (fun _ _ => 0) 85 wSongA (.error ()) (.ok [])).result = none := by
  have h := C3_two_attempt_policy (fun _ _ => 0) 85 wSongA (.error ()) (.ok [])
    (by decide) (by decide)
  exact ⟨h.2.1.mpr (Or.inl rfl), h.2.2.1 (Or.inl rfl) (Or.inr rfl)⟩

/-! ### The candidate scorer (claims C1 and C5) -/

lemma scoreLoop_cons (score : String → String → Nat) (targetLower : String) (θ : Nat)
    (a : RawTrack) (rest : List RawTrack) (best : Option SpotifyTrack) (highest : Nat) :
    scoreLoop score targetLower θ (a :: rest) best highest
      = if validTrack a = true then
          if θ ≤ scoreOf score targetLower a ∧ highest < scoreOf score targetLower a then
            scoreLoop score targetLower θ rest
              (if uriIdOk a = true then some (mkSpotifyTrack a) else best)
              (scoreOf score targetLower a)
          else scoreLoop score targetLower θ rest best highest
        else scoreLoop score targetLower θ rest best highest := rfl

/-- Characterization of the scoring loop when every candidate carries a
truthy uri and id: it returns the first candidate attaining the maximum
of the scores that clear the threshold and exceed the running best. -/
lemma scoreLoop_argmax (score : String → String → Nat) (targetLower : String) (θ : Nat) :
    ∀ tracks : List RawTrack, (∀ t ∈ tracks, uriIdOk t = true) →
    ∀ (best : Option SpotifyTrack) (highest : Nat),
      ((∀ t ∈ tracks, validTrack t = true → θ ≤ scoreOf score targetLower t →
          scoreOf score targetLower t ≤ highest)
        ∧ scoreLoop score targetLower θ tracks best highest = (best, highest))
      ∨ (∃ pre t post, tracks = pre ++ t :: post ∧ validTrack t = true
          ∧ θ ≤ scoreOf score targetLower t ∧ highest < scoreOf score targetLower t
          ∧ (∀ u ∈ pre, validTrack u = true → θ ≤ scoreOf score targetLower u →
              scoreOf score targetLower u < scoreOf score targetLower t)
          ∧ (∀ u ∈ post, validTrack u = true → θ ≤ scoreOf score targetLower u →
              scoreOf score targetLower u ≤ scoreOf score targetLower t)
          ∧ scoreLoop score targetLower θ tracks best highest
              = (some (mkSpotifyTrack t), scoreOf score targetLower t)) := by
  intro tracks
  induction tracks with
  | nil =>
    intro _ best highest
    exact Or.inl ⟨fun t ht => absurd ht (List.not_mem_nil t), rfl⟩
  | cons a rest ih =>
    intro hu best highest
    have hua : uriIdOk a = true := hu a (List.mem_cons_self a rest)
    have hur : ∀ t ∈ rest, uriIdOk t = true := fun t ht => hu t (List.mem_cons_of_mem a ht)
    by_cases hv : validTrack a = true
    · by_cases hacc : θ ≤ scoreOf score targetLower a ∧ highest < scoreOf score targetLower a
      · have hloop : scoreLoop score targetLower θ (a :: rest) best highest
            = scoreLoop score targetLower θ rest (some (mkSpotifyTrack a))
                (scoreOf score targetLower a) := by
          rw [scoreLoop_cons, if_pos hv, if_pos hacc, if_pos hua]
        rcases ih hur (some (mkSpotifyTrack a)) (scoreOf score targetLower a) with
          ⟨hall, heq⟩ | ⟨pre, t, post, hdec, hvt, hθt, hlt, hpre, hpost, heq⟩
        · refine Or.inr ⟨[], a, rest, rfl, hv, hacc.1, hacc.2, ?_, hall, ?_⟩
          · intro u hu'
            exact absurd hu' (List.not_mem_nil u)
          · rw [hloop, heq]
        · refine Or.inr ⟨a :: pre, t, post, by rw [hdec]; rfl, hvt, hθt,
            lt_trans hacc.2 hlt, ?_, hpost, by rw [hloop, heq]⟩
          intro u hu'
          rcases List.mem_cons.mp hu' with rfl | hu''
          · intro _ _
            exact hlt
          · exact hpre u hu''
      · have hloop : scoreLoop score targetLower θ (a :: rest) best highest
            = scoreLoop score targetLower θ rest best highest := by
          rw [scoreLoop_cons, if_pos hv, if_neg hacc]
        have hna : θ ≤ scoreOf score targetLower a →
            scoreOf score targetLower a ≤ highest := by
          intro hθa
          by_contra hgt
          exact hacc ⟨hθa, Nat.not_le.mp hgt⟩
        rcases ih hur best highest with
          ⟨hall, heq⟩ | ⟨pre, t, post, hdec, hvt, hθt, hlt, hpre, hpost, heq⟩
        · refine Or.inl ⟨?_, by rw [hloop, heq]⟩
          intro u hu' hv' hθ'
          rcases List.mem_cons.mp hu' with rfl | h
          · exact hna hθ'
          · exact hall u h hv' hθ'
        · refine Or.inr ⟨a :: pre, t, post, by rw [hdec]; rfl, hvt, hθt, hlt, ?_,
            hpost, by rw [hloop, heq]⟩
          intro u hu'
          rcases List.mem_cons.mp hu' with rfl | h
          · intro _ hθ'
            exact lt_of_le_of_lt (hna hθ') hlt
          · exact hpre u h
    · have hloop : scoreLoop score targetLower θ (a :: rest) best highest
          = scoreLoop score targetLower θ rest best highest := by
        rw [scoreLoop_cons, if_neg hv]
      rcases ih hur best highest with
        ⟨hall, heq⟩ | ⟨pre, t, post, hdec, hvt, hθt, hlt, hpre, hpost, heq⟩
      · refine Or.inl ⟨?_, by rw [hloop, heq]⟩
        intro u hu' hv' hθ'
        rcases List.mem_cons.mp hu' with rfl | h
        · exact absurd hv' hv
        · exact hall u h hv' hθ'
      · refine Or.inr ⟨a :: pre, t, post, by rw [hdec]; rfl, hvt, hθt, hlt, ?_,
          hpost, by rw [hloop, heq]⟩
        intro u hu'
        rcases List.mem_cons.mp hu' with rfl | h
        · intro hv' _
          exact absurd hv' hv
        · exact hpre u h

/-- Concrete candidates for the scorer claims. -/
def wRawA : RawTrack :=
  ⟨some "SongX", [some "ArtistX"], some "spotify:track:T1", some "T1", none, none, none⟩

/-- A candidate with a display name and artists but no uri/id. -/
def wRawNoUri : RawTrack :=
  ⟨some "SongY", [some "ArtistY"], none, none, none, none, none⟩

/-- A score function giving the uri-less candidate the strictly highest
score. -/
def wScore : String → String → Nat :=
  fun _ cand => if cand = "artisty songy" then 95 else 90

/-- C1 (counterexample): with a candidate list whose strictly
highest-scoring member (score 95 ≥ threshold) lacks a uri/id, the scorer
does not select it: it returns the earlier, lower-scoring candidate —
paired with the later candidate's score. -/
theorem C1_counterexample :
    validTrack wRawA = true ∧ validTrack wRawNoUri = true
    ∧ scoreOf wScore "target" wRawA = 90 ∧ scoreOf wScore "target" wRawNoUri = 95
    ∧ score_and_select wScore "target" 85 [wRawA, wRawNoUri]
        = some (mkSpotifyTrack wRawA, 95)
    ∧ (some (mkSpotifyTrack wRawA, 95) : Option (SpotifyTrack × Nat))
        ≠ some (mkSpotifyTrack wRawNoUri, 95) := by
  refine ⟨by decide, by decide, by decide, by decide, by decide, by decide⟩

/-- C1 (amended): when every candidate carries a truthy uri and id and
the threshold is positive, the scorer returns null exactly when no
valid candidate scores at or above the threshold, and otherwise selects
the first-iterated candidate attaining the strictly highest qualifying
score, paired with that score; ties keep the earlier candidate. -/
theorem C1_scorer_selection (score : String → String → Nat) (targetLower : String)
    (θ : Nat) (tracks : List RawTrack)
    (hθ : 1 ≤ θ) (hu : ∀ t ∈ tracks, uriIdOk t = true) :
    (score_and_select score targetLower θ tracks = none →
      ∀ t ∈ tracks, validTrack t = true → scoreOf score targetLower t < θ)
    ∧ (∀ tr sc, score_and_select score targetLower θ tracks = some (tr, sc) →
        θ ≤ sc
        ∧ ∃ pre t post, tracks = pre ++ t :: post ∧ validTrack t = true
            ∧ scoreOf score targetLower t = sc ∧ tr = mkSpotifyTrack t
            ∧ (∀ u ∈ pre, validTrack u = true → θ ≤ scoreOf score targetLower u →
                scoreOf score targetLower u < sc)
            ∧ (∀ u ∈ tracks, validTrack u = true → θ ≤ scoreOf score targetLower u →
                scoreOf score targetLower u ≤ sc)) := by
  rcases scoreLoop_argmax score targetLower θ tracks hu none 0 with
    ⟨hall, heq⟩ | ⟨pre, t, post, hdec, hvt, hθt, _, hpre, hpost, heq⟩
  · constructor
    · intro _ t ht hv
      by_contra hge
      have hθ' : θ ≤ scoreOf score targetLower t := Nat.not_lt.mp hge
      have := hall t ht hv hθ'
      omega
    · intro tr sc hsome
      unfold score_and_select at hsome
      rw [heq] at hsome
      exact absurd hsome (by simp)
  · have hsel : score_and_select score targetLower θ tracks
        = some (mkSpotifyTrack t, scoreOf score targetLower t) := by
      unfold score_and_select
      rw [heq]
    constructor
    · intro hnone
      rw [hsel] at hnone
      exact absurd hnone (by simp)
    · intro tr sc hsome
      rw [hsel] at hsome
      have hpair : tr = mkSpotifyTrack t ∧ sc = scoreOf score targetLower t := by
        have := Option.some_inj.mp hsome
        exact ⟨congrArg Prod.fst this.symm, congrArg Prod.snd this.symm⟩
      obtain ⟨rfl, rfl⟩ := hpair
      refine ⟨hθt, pre, t, post, hdec, hvt, rfl, rfl, hpre, ?_⟩
      intro u hu' hv' hθ'
      rw [hdec] at hu'
      rcases List.mem_append.mp hu' with h | h
      · exact le_of_lt (hpre u h hv' hθ')
      · rcases List.mem_cons.mp h with rfl | h'
        · exact le_refl _
        · exact hpost u h' hv' hθ'

/-- C1 (witness): the amended statement at a concrete input — one valid
uri-carrying candidate scoring 90 under threshold 95 — yields no match,
so that candidate indeed scores below the threshold. -/
theorem C1_witness : scoreOf (fun _ _ => 90) "t" wRawA < 95 :=
  (C1_scorer_selection (fun _ _ => 90) "t" 95 [wRawA] (by decide) (by decide)).1
    (by decide) wRawA (List.mem_singleton.mpr rfl) (by decide)

/-- Characterization of when the scoring loop produces a best match:
some valid, uri-carrying candidate clears the threshold and strictly
exceeds both the incoming running best and every qualifying candidate
before it. -/
lemma scoreLoop_isSome_iff (score : String → String → Nat) (targetLower : String)
    (θ : Nat) :
    ∀ (tracks : List RawTrack) (best : Option SpotifyTrack) (highest : Nat),
      (scoreLoop score targetLower θ tracks best highest).1.isSome = true
      ↔ (best.isSome = true
         ∨ ∃ pre t post, tracks = pre ++ t :: post ∧ validTrack t = true
             ∧ uriIdOk t = true ∧ θ ≤ scoreOf score targetLower t
             ∧ highest < scoreOf score targetLower t
             ∧ ∀ u ∈ pre, validTrack u = true → θ ≤ scoreOf score targetLower u →
                 scoreOf score targetLower u < scoreOf score targetLower t) := by
  intro tracks
  induction tracks with
  | nil =>
    intro best highest
    constructor
    · intro h
      exact Or.inl h
    · rintro (h | ⟨pre, t, post, hdec, -⟩)
      · exact h
      · cases pre <;> simp at hdec
  | cons a rest ih =>
    intro best highest
    by_cases hv : validTrack a = true
    · by_cases hacc : θ ≤ scoreOf score targetLower a ∧ highest < scoreOf score targetLower a
      · by_cases hua : uriIdOk a = true
        · rw [scoreLoop_cons, if_pos hv, if_pos hacc, if_pos hua, ih]
          constructor
          · intro _
            exact Or.inr ⟨[], a, rest, rfl, hv, hua, hacc.1, hacc.2,
              fun u hu => absurd hu (List.not_mem_nil u)⟩
          · intro _
            exact Or.inl rfl
        · rw [scoreLoop_cons, if_pos hv, if_pos hacc, if_neg hua, ih]
          constructor
          · rintro (hb | ⟨pre', t, post', hdec', hvt, hut, hθt, hlt, hpre'⟩)
            · exact Or.inl hb
            · refine Or.inr ⟨a :: pre', t, post', by rw [hdec']; rfl, hvt, hut, hθt,
                lt_trans hacc.2 hlt, ?_⟩
              intro u hu'
              rcases List.mem_cons.mp hu' with rfl | h
              · intro _ _
                exact hlt
              · exact hpre' u h
          · rintro (hb | ⟨pre, t, post, hdec, hvt, hut, hθt, hlt, hpre⟩)
            · exact Or.inl hb
            · cases pre with
              | nil =>
                rw [List.nil_append] at hdec
                injection hdec with h1 h2
                subst h1
                exact absurd hut hua
              | cons x pre' =>
                rw [List.cons_append] at hdec
                injection hdec with h1 h2
                subst h1
                refine Or.inr ⟨pre', t, post, h2, hvt, hut, hθt, ?_, ?_⟩
                · exact hpre a (List.mem_cons_self a pre') hv hacc.1
                · intro u hu'
                  exact hpre u (List.mem_cons_of_mem a hu')
      · rw [scoreLoop_cons, if_pos hv, if_neg hacc, ih]
        have hna : θ ≤ scoreOf score targetLower a →
            scoreOf score targetLower a ≤ highest := by
          intro hθa
          by_contra hgt
          exact hacc ⟨hθa, Nat.not_le.mp hgt⟩
        constructor
        · rintro (hb | ⟨pre', t, post', hdec', hvt, hut, hθt, hlt, hpre'⟩)
          · exact Or.inl hb
          · refine Or.inr ⟨a :: pre', t, post', by rw [hdec']; rfl, hvt, hut, hθt, hlt, ?_⟩
            intro u hu'
            rcases List.mem_cons.mp hu' with rfl | h
            · intro _ hθ'
              exact lt_of_le_of_lt (hna hθ') hlt
            · exact hpre' u h
        · rintro (hb | ⟨pre, t, post, hdec, hvt, hut, hθt, hlt, hpre⟩)
          · exact Or.inl hb
          · cases pre with
            | nil =>
              rw [List.nil_append] at hdec
              injection hdec with h1 h2
              subst h1
              exact absurd ⟨hθt, hlt⟩ hacc
            | cons x pre' =>
              rw [List.cons_append] at hdec
              injection hdec with h1 h2
              subst h1
              refine Or.inr ⟨pre', t, post, h2, hvt, hut, hθt, hlt, ?_⟩
              intro u hu'
              exact hpre u (List.mem_cons_of_mem a hu')
    · rw [scoreLoop_cons, if_neg hv, ih]
      constructor
      · rintro (hb | ⟨pre', t, post', hdec', hvt, hut, hθt, hlt, hpre'⟩)
        · exact Or.inl hb
        · refine Or.inr ⟨a :: pre', t, post', by rw [hdec']; rfl, hvt, hut, hθt, hlt, ?_⟩
          intro u hu'
          rcases List.mem_cons.mp hu' with rfl | h
          · intro hv' _
            exact absurd hv' hv
          · exact hpre' u h
      · rintro (hb | ⟨pre, t, post, hdec, hvt, hut, hθt, hlt, hpre⟩)
        · exact Or.inl hb
        · cases pre with
          | nil =>
            rw [List.nil_append] at hdec
            injection hdec with h1 h2
            subst h1
            exact absurd hvt hv
          | cons x pre' =>
            rw [List.cons_append] at hdec
            injection hdec with h1 h2
            subst h1
            refine Or.inr ⟨pre', t, post, h2, hvt, hut, hθt, hlt, ?_⟩
            intro u hu'
            exact hpre u (List.mem_cons_of_mem a hu')

/-- C5: scorer selection is antitone in the threshold — a match at
threshold `t1` is still a match at every threshold `t2 ≤ t1`, for any
fixed query and candidate list. -/
theorem C5_threshold_antitone (score : String → String → Nat) (targetLower : String)
    (tracks : List RawTrack) (t1 t2 : Nat) (h12 : t2 ≤ t1)
    (hm : (score_and_select score targetLower t1 tracks).isSome = true) :
    (score_and_select score targetLower t2 tracks).isSome = true := by
  have hsel : ∀ θ : Nat, (score_and_select score targetLower θ tracks).isSome
      = (scoreLoop score targetLower θ tracks none 0).1.isSome := by
    intro θ
    unfold score_and_select
    rcases scoreLoop score targetLower θ tracks none 0 with ⟨b, h⟩
    cases b <;> rfl
  rw [hsel t1] at hm
  rw [hsel t2]
  rcases (scoreLoop_isSome_iff score targetLower t1 tracks none 0).mp hm with
    hb | ⟨pre, t, post, hdec, hvt, hut, hθt, hlt, hpre⟩
  · exact absurd hb (by simp)
  · refine (scoreLoop_isSome_iff score targetLower t2 tracks none 0).mpr
      (Or.inr ⟨pre, t, post, hdec, hvt, hut, le_trans h12 hθt, hlt, ?_⟩)
    intro u hu hv' hθ2
    by_cases hθ1 : t1 ≤ scoreOf score targetLower u
    · exact hpre u hu hv' hθ1
    · exact lt_of_lt_of_le (Nat.not_le.mp hθ1) hθt

/-- C5 (witness): a match at threshold 90 is still a match at the lower
threshold 85, at a concrete query and candidate list. -/
theorem C5_witness :
    (score_and_select (fun _ _ => 90) "t" 85 [wRawA]).isSome = true :=
  C5_threshold_antitone (fun _ _ => 90) "t" [wRawA] 90 85 (by decide) (by decide)

/-! ### The match cache (claim C2) -/

/-- Loop invariant of `run_migration`: the log of issued searches has no
repeated key, its keys are exactly the cached keys, and every emitted
(non-skipped) verdict agrees with the cache entry under its key. -/
def RunInv (st : RunState) (rs : List MigrationResult) : Prop :=
  st.searchLog.Nodup
  ∧ (∀ k : CacheKey, k ∈ st.searchLog ↔ (findCache k st.cache).isSome = true)
  ∧ (∀ r ∈ rs, ∀ k, lookupKeyOf? r.youtube_song = some k →
      findCache k st.cache = some r.spotify_track)

lemma findCache_cons (k k0 : CacheKey) (v : Option SpotifyTrack)
    (c : List (CacheKey × Option SpotifyTrack)) :
    findCache k ((k0, v) :: c) = if k0 = k then some v else findCache k c := rfl

lemma processSong_inv (search : YouTubeSong → Option (SpotifyTrack × Nat))
    (st : RunState) (yt : YouTubeSong) (rs : List MigrationResult)
    (h : RunInv st rs) :
    RunInv (processSong search st yt).1 (rs ++ [(processSong search st yt).2]) := by
  obtain ⟨h1, h2, h3⟩ := h
  by_cases hsk : strTruthy yt.parsed_song_name = true
  · have hkey : lookupKeyOf? yt = some (cacheKey yt) := by
      simp [lookupKeyOf?, hsk]
    have hkeyeq : ∀ k, lookupKeyOf? yt = some k → k = cacheKey yt := by
      intro k hk
      rw [hkey] at hk
      exact (Option.some_inj.mp hk).symm
    cases hfc : findCache (cacheKey yt) st.cache with
    | some v =>
      cases v with
      | some tr =>
        unfold processSong
        rw [if_neg (by simp [hsk])]
        simp only [hfc]
        refine ⟨h1, h2, ?_⟩
        intro r hr k hk
        rcases List.mem_append.mp hr with hmem | hmem
        · exact h3 r hmem k hk
        · rcases List.mem_singleton.mp hmem with rfl
          rcases hkeyeq k hk with rfl
          exact hfc
      | none =>
        unfold processSong
        rw [if_neg (by simp [hsk])]
        simp only [hfc]
        refine ⟨h1, h2, ?_⟩
        intro r hr k hk
        rcases List.mem_append.mp hr with hmem | hmem
        · exact h3 r hmem k hk
        · rcases List.mem_singleton.mp hmem with rfl
          rcases hkeyeq k hk with rfl
          exact hfc
    | none =>
      have hknot : cacheKey yt ∉ st.searchLog := by
        intro hmem
        have hsome := (h2 _).mp hmem
        rw [hfc] at hsome
        simp at hsome
      have hnodup : (st.searchLog ++ [cacheKey yt]).Nodup := by
        rw [List.nodup_append]
        refine ⟨h1, List.nodup_singleton _, ?_⟩
        intro a ha hb
        rw [List.mem_singleton] at hb
        subst hb
        exact hknot ha
      have hmemlog : ∀ (v : Option SpotifyTrack) (k' : CacheKey),
          k' ∈ st.searchLog ++ [cacheKey yt]
            ↔ (findCache k' ((cacheKey yt, v) :: st.cache)).isSome = true := by
        intro v k'
        rw [findCache_cons]
        by_cases hk' : cacheKey yt = k'
        · subst hk'
          rw [if_pos rfl]
          simp
        · rw [if_neg hk']
          rw [List.mem_append, List.mem_singleton]
          constructor
          · intro hc
            rcases hc with hc | hc
            · exact (h2 k').mp hc
            · exact absurd hc.symm hk'
          · intro hc
            exact Or.inl ((h2 k').mpr hc)
      have holdr : ∀ (v : Option SpotifyTrack), ∀ r ∈ rs, ∀ k,
          lookupKeyOf? r.youtube_song = some k →
          findCache k ((cacheKey yt, v) :: st.cache) = some r.spotify_track := by
        intro v r hmem k hk
        have hold := h3 r hmem k hk
        rw [findCache_cons]
        by_cases hkk : cacheKey yt = k
        · subst hkk
          rw [hfc] at hold
          exact absurd hold (by simp)
        · rw [if_neg hkk]
          exact hold
      cases hsr : search yt with
      | some p =>
        obtain ⟨tr, sc⟩ := p
        unfold processSong
        rw [if_neg (by simp [hsk])]
        simp only [hfc, hsr]
        refine ⟨hnodup, hmemlog (some tr), ?_⟩
        intro r hr k hk
        rcases List.mem_append.mp hr with hmem | hmem
        · exact holdr (some tr) r hmem k hk
        · rcases List.mem_singleton.mp hmem with rfl
          rcases hkeyeq k hk with rfl
          rw [findCache_cons, if_pos rfl]
      | none =>
        unfold processSong
        rw [if_neg (by simp [hsk])]
        simp only [hfc, hsr]
        refine ⟨hnodup, hmemlog none, ?_⟩
        intro r hr k hk
        rcases List.mem_append.mp hr with hmem | hmem
        · exact holdr none r hmem k hk
        · rcases List.mem_singleton.mp hmem with rfl
          rcases hkeyeq k hk with rfl
          rw [findCache_cons, if_pos rfl]
  · have hsf : strTruthy yt.parsed_song_name = false := by
      revert hsk
      cases strTruthy yt.parsed_song_name <;> simp
    unfold processSong
    rw [if_pos (by simp [hsf])]
    refine ⟨h1, h2, ?_⟩
    intro r hr k hk
    rcases List.mem_append.mp hr with hmem | hmem
    · exact h3 r hmem k hk
    · rcases List.mem_singleton.mp hmem with rfl
      simp [lookupKeyOf?, hsf] at hk

lemma run_migration_loop_inv (search : YouTubeSong → Option (SpotifyTrack × Nat))
    (songs : List YouTubeSong) :
    RunInv (run_migration_loop search songs).1 (run_migration_loop search songs).2 := by
  have hstep : ∀ (ss : List YouTubeSong) (acc : RunState × List MigrationResult),
      RunInv acc.1 acc.2 →
      RunInv ((ss.foldl
        (fun acc yt =>
          let p := processSong search acc.1 yt
          (p.1, acc.2 ++ [p.2])) acc)).1
        ((ss.foldl
          (fun acc yt =>
            let p := processSong search acc.1 yt
            (p.1, acc.2 ++ [p.2])) acc)).2 := by
    intro ss
    induction ss with
    | nil => intro acc hacc; exact hacc
    | cons yt rest ih =>
      intro acc hacc
      exact ih _ (processSong_inv search acc.1 yt acc.2 hacc)
  refine hstep songs (initRunState, []) ⟨List.nodup_nil, ?_, ?_⟩
  · intro k
    constructor
    · intro hmem
      exact absurd hmem (List.not_mem_nil k)
    · intro hsome
      exact absurd hsome (by simp [initRunState, findCache])
  · intro r hr
    exact absurd hr (List.not_mem_nil r)

/-- C2: during one run, the log of issued remote searches never repeats
a normalized cache key (at most one search per distinct key), and any
two non-skipped verdicts whose items share the same normalized key carry
the same stored verdict (the same optional winning track). -/
theorem C2_cache_dedup (search : YouTubeSong → Option (SpotifyTrack × Nat))
    (songs : List YouTubeSong) :
    (run_migration_loop search songs).1.searchLog.Nodup
    ∧ (∀ r1 ∈ (run_migration_loop search songs).2,
       ∀ r2 ∈ (run_migration_loop search songs).2,
       ∀ k, lookupKeyOf? r1.youtube_song = some k →
         lookupKeyOf? r2.youtube_song = some k →
         r1.spotify_track = r2.spotify_track) := by
  obtain ⟨h1, _, h3⟩ := run_migration_loop_inv search songs
  refine ⟨h1, ?_⟩
  intro r1 hr1 r2 hr2 k hk1 hk2
  have e1 := h3 r1 hr1 k hk1
  have e2 := h3 r2 hr2 k hk2
  rw [e1] at e2
  exact Option.some_inj.mp e2

/-- The two verdicts of the concrete same-key run used as C2's witness. -/
def wRes1 : MigrationResult :=
  ⟨wSongA, some wTrack, some 90, "SUCCESS",
   some "Found Spotify track \x27SongX\x27 (Score: 90)"⟩

def wRes2 : MigrationResult :=
  ⟨wSongB, some wTrack, none, "SUCCESS (Cached)",
   some "Reused cached Spotify track \x27SongX\x27"⟩

/-- C2 (witness): two items differing only in case and whitespace share
one normalized key; in the concrete run both receive the same verdict
(and the search log holds that key just once). -/
theorem C2_witness : wRes1.spotify_track = wRes2.spotify_track :=
  (C2_cache_dedup wSearch [wSongA, wSongB]).2 wRes1 (by decide) wRes2 (by decide)
    (some "artistx", "songx") (by decide) (by decide)

end YtSp
